import Mathlib

/-!
Verification of the two Ansible modules of the luadist role:
`library/luadist.py` (the basic variant) and `library/luadist_wrapper.py`
(the extended variant).

Both modules are shallowly embedded.  The external collaborators — the
filesystem existence check and the subprocess runner (`module.run_command`)
— are modelled by an `Env` oracle that records, for each command the module
can run, the exit code and captured stdout/stderr the external world would
answer with.  Each embedded operation returns, besides its outcome, the
trace of subprocess invocations it performed, each with the working
directory it was run in.
-/

/-- Boolean prefix test on character lists. -/
def prefixB : List Char → List Char → Bool
  | [], _ => true
  | _ :: _, [] => false
  | a :: as, b :: bs => a = b && prefixB as bs

/-- Boolean contiguous-substring test on character lists. -/
def infixB (needle : List Char) : List Char → Bool
  | [] => prefixB needle []
  | c :: rest => prefixB needle (c :: rest) || infixB needle rest

/-- Python's `in` operator on strings: `substrB needle hay` holds iff
`needle` occurs contiguously in `hay`. -/
def substrB (needle hay : String) : Bool :=
  infixB needle.toList hay.toList

/-- A module request: the caller-supplied parameters together with the
check-mode flag of the invocation.  `name` is the package-list parameter
(called `package` in the basic variant); it is `none` when the caller
omitted it, in which case Ansible binds the Python value `None`. -/
structure Request where
  path : String
  name : Option (List String)
  allow_dists : String
  dists_repo : String
  check_mode : Bool
deriving Repr, DecidableEq

/-- The subprocess commands either module can construct.  The concrete
shell string of each is given by `Cmd.toShell` below. -/
inductive Cmd where
  | bootstrap
  | bootstrapBasic
  | list (pkgname : String)
  | install (packages : List String) (allowed_dists repo : String)
  | installBasic (packages : List String) (allowed_dists repo : String)
deriving Repr, DecidableEq

/-- One subprocess invocation: the command run and the working directory
(`cwd=` argument of `module.run_command`) it was run with. -/
structure Invocation where
  cmd : Cmd
  cwd : String
deriving Repr, DecidableEq

/-- Oracle for the external world: filesystem answers and subprocess
results.  `present` is the answer of the `os.path.exists` check for
`LuaDist/bin/luadist` under the request path before any bootstrap;
`presentAfterBootstrap` is the answer of the same check after the
bootstrap subprocess has run.  The `list*` fields give the result of
`./LuaDist/bin/luadist list <pkgname>` keyed by package name; the
`install*` fields the result of the single install command a run can
issue; the `bootstrap*` fields the result of the bootstrap pipeline. -/
structure Env where
  present : Bool
  presentAfterBootstrap : Bool
  bootstrapRc : Int
  bootstrapOut : String
  bootstrapErr : String
  listRc : String → Int
  listOut : String → String
  listErr : String → String
  installRc : Int
  installOut : String
  installErr : String

/-- Default oracle used as the base of concrete test environments. -/
def baseEnv : Env :=
  { present := true
    presentAfterBootstrap := true
    bootstrapRc := 0
    bootstrapOut := ""
    bootstrapErr := ""
    listRc := fun _ => 0
    listOut := fun _ => ""
    listErr := fun _ => ""
    installRc := 0
    installOut := ""
    installErr := "" }

/-- Space-terminated concatenation of the package names, in request order:
the package portion of the constructed install command.  Its recursive
structure records that every name contributes exactly once, in order. -/
def packagesField : List String → String
  | [] => ""
  | p :: ps => p ++ " " ++ packagesField ps

/-- Value of `source_allowed` in `_install_packages` of both variants:
initialised to "true" and overridden to "false" when the dist policy is
"binary". -/
def sourceFlagStr (allowed_dists : String) : String :=
  if allowed_dists = "binary" then "false" else "true"

/-- Value of `binary_allowed` in `_install_packages` of both variants:
initialised to "true" and overridden to "false" in the elif branch taken
when the dist policy is "source" (the two tested literals differ, so the
if/elif equals this single conditional). -/
def binaryFlagStr (allowed_dists : String) : String :=
  if allowed_dists = "source" then "false" else "true"

namespace LuadistWrapper

/-- Structured result of the extended variant (`module.exit_json(**result)`
with `result = dict(changed=..., cmd=..., env_path=..., name=...)`). -/
structure WResult where
  changed : Bool
  cmd : String
  env_path : String
  name : Option (List String)
deriving Repr, DecidableEq

/-- Data carried by a `module.fail_json(rc=..., stdout=..., stderr=...,
msg=...)` call of the extended variant. -/
structure Failure where
  rc : Int
  stdout : String
  stderr : String
  msg : String
deriving Repr, DecidableEq

/-- How a run of the extended variant ends: a normal `exit_json`, a fatal
`fail_json`, the early exit of the Ansible harness for a check-mode
request (the module registers no check-mode support, so the harness stops
the run before the module body executes and reports no change), or an
uncaught Python exception. -/
inductive Outcome where
  | exited (r : WResult)
  | failed (f : Failure)
  | skipped
  | pyError (msg : String)
deriving Repr, DecidableEq

/-- Changed flag the controller records for an outcome: the `changed`
field of an `exit_json` result, false for a skipped check-mode run, and
irrelevant-but-false for fatal ends. -/
def Outcome.changedFlag : Outcome → Bool
  | Outcome.exited r => r.changed
  | _ => false

/-- An outcome is a success when the run ended without a fatal error:
a normal exit or the harness-level check-mode skip. -/
def Outcome.isSuccess : Outcome → Bool
  | Outcome.exited _ => true
  | Outcome.skipped => true
  | _ => false

/-- An outcome is fatal when it came from `module.fail_json`. -/
def Outcome.isFatal : Outcome → Bool
  | Outcome.failed _ => true
  | _ => false

/-- Install command of `_install_packages` (lines 168-184): the literal
string built from the packages, the dist-policy flags and the quoted
repository.  The source initialises both flags to "true" and then
overrides one of them in an if/elif on `allowed_dists`; since the two
tested literals differ, this equals the two independent conditionals
written here. -/
def installShell (packages : List String) (allowed_dists repo : String) : String :=
  let cmd := "./LuaDist/bin/luadist install "
  let cmd := packages.foldl (fun c p => c ++ p ++ " ") cmd
  let cmd := cmd ++ " -source=" ++ sourceFlagStr allowed_dists
    ++ " -binary=" ++ binaryFlagStr allowed_dists
  cmd ++ " -repos=\"" ++ repo ++ "\""

end LuadistWrapper

namespace Luadist

/-- Install command of the basic variant's `_install_packages`
(lines 147-163); identical to the extended variant's except for the
`--repo=` flag spelling. -/
def installShellBasic (packages : List String) (allowed_dists repo : String) : String :=
  let cmd := "./LuaDist/bin/luadist install "
  let cmd := packages.foldl (fun c p => c ++ p ++ " ") cmd
  let cmd := cmd ++ " -source=" ++ sourceFlagStr allowed_dists
    ++ " -binary=" ++ binaryFlagStr allowed_dists
  cmd ++ " --repo=\"" ++ repo ++ "\""

end Luadist

/-- Shell string of each structured command, exactly as the sources build
them. -/
def Cmd.toShell : Cmd → String
  | Cmd.bootstrap => "curl -fksSL https://tinyurl.com/luadist | bash"
  | Cmd.bootstrapBasic => "echo \"$(curl -fksSL https://tinyurl.com/luadist)\" | bash"
  | Cmd.list pkgname => "./LuaDist/bin/luadist list " ++ pkgname
  | Cmd.install packages a r => LuadistWrapper.installShell packages a r
  | Cmd.installBasic packages a r => Luadist.installShellBasic packages a r

/-- Recogniser for the package-list commands. -/
def Cmd.isList : Cmd → Bool
  | Cmd.list _ => true
  | _ => false

/-- Recogniser for the bootstrap commands of either variant. -/
def Cmd.isBootstrap : Cmd → Bool
  | Cmd.bootstrap => true
  | Cmd.bootstrapBasic => true
  | _ => false

/-- Recogniser for the install commands of either variant. -/
def Cmd.isInstall : Cmd → Bool
  | Cmd.install _ _ _ => true
  | Cmd.installBasic _ _ _ => true
  | _ => false

namespace LuadistWrapper

/-- Embedding of `_setup_luadist` (lines 139-149): run the bootstrap
pipeline in `path`, then re-check presence; if the binary is still absent,
fail fatally with the captured exit code, stdout and stderr. -/
def setup_luadist (env : Env) (path : String) : Invocation × Option Failure :=
  ({ cmd := Cmd.bootstrap, cwd := path },
   if env.presentAfterBootstrap then none
   else some
     { rc := env.bootstrapRc
       stdout := env.bootstrapOut
       stderr := env.bootstrapErr
       msg := "Cannot create LuaDist environment in the specified path." })

/-- Embedding of `_is_present` (lines 152-163): run the list command in
`path`; a non-zero exit is fatal with the captured output, otherwise the
package is judged present iff its name is a substring of stdout. -/
def is_present (env : Env) (path pkgname : String) : Invocation × Except Failure Bool :=
  ({ cmd := Cmd.list pkgname, cwd := path },
   if env.listRc pkgname ≠ 0 then
     Except.error
       { rc := env.listRc pkgname
         stdout := env.listOut pkgname
         stderr := env.listErr pkgname
         msg := "Cannot check the status of one or more packages." }
   else Except.ok (substrB pkgname (env.listOut pkgname)))

/-- Embedding of the audit loop of `run_module` (lines 120-124): call
`_is_present` for each package in order, stopping at the first package
judged missing (the `break`) or at a fatal audit failure.  Returns the
invocations performed and either the failure or the final `all_present`
flag. -/
def auditLoop (env : Env) (path : String) : List String → List Invocation × Except Failure Bool
  | [] => ([], Except.ok true)
  | p :: ps =>
    let step := is_present env path p
    match step.2 with
    | Except.error f => ([step.1], Except.error f)
    | Except.ok true => (step.1 :: (auditLoop env path ps).1, (auditLoop env path ps).2)
    | Except.ok false => ([step.1], Except.ok false)

/-- Embedding of `_install_packages` (lines 166-198): build the install
command, run it in `path`; a non-zero exit without the benign
"No packages to install" phrase in stdout is fatal; otherwise the command
string is returned. -/
def install_packages (env : Env) (path : String) (packages : List String)
    (allowed_dists repo : String) : Invocation × Except Failure String :=
  let cmd := installShell packages allowed_dists repo
  let already_installed := substrB "No packages to install" env.installOut
  ({ cmd := Cmd.install packages allowed_dists repo, cwd := path },
   if env.installRc ≠ 0 && !already_installed then
     Except.error
       { rc := env.installRc
         stdout := env.installOut
         stderr := env.installErr
         msg := "Cannot install one or more of the specified packages, make sure all packages exist in the configured repository." }
   else Except.ok cmd)

/-- Continuation of `run_module` after the presence/bootstrap step
(lines 119-131), with the trace `t1` and result `r1` accumulated so far.
Iterating `for package in packages` over the Python value `None` (the
default of the omitted `name` parameter) raises TypeError. -/
def continueAudit (req : Request) (env : Env) (t1 : List Invocation) (r1 : WResult) :
    List Invocation × Outcome :=
  match req.name with
  | none => (t1, Outcome.pyError "TypeError: NoneType object is not iterable")
  | some packages =>
    let audit := auditLoop env req.path packages
    match audit.2 with
    | Except.error f => (t1 ++ audit.1, Outcome.failed f)
    | Except.ok true => (t1 ++ audit.1, Outcome.exited r1)
    | Except.ok false =>
      let inst := install_packages env req.path packages req.allow_dists req.dists_repo
      match inst.2 with
      | Except.error f => (t1 ++ audit.1 ++ [inst.1], Outcome.failed f)
      | Except.ok cmd =>
        (t1 ++ audit.1 ++ [inst.1],
         Outcome.exited { r1 with changed := true, cmd := cmd })

/-- Embedding of `run_module` of the extended variant (lines 93-131).
The module is created without `supports_check_mode`, so a check-mode
request ends in the harness before the body runs (no subprocess, no
change).  Otherwise: initialise the result echoing `path` and `name`;
if the binary is absent, mark changed and bootstrap (fatal if the binary
is still absent afterwards); then audit and, if some package is missing,
install. -/
def run_module (req : Request) (env : Env) : List Invocation × Outcome :=
  if req.check_mode then ([], Outcome.skipped)
  else
    let r0 : WResult := { changed := false, cmd := "", env_path := req.path, name := req.name }
    if env.present then
      continueAudit req env [] r0
    else
      let setup := setup_luadist env req.path
      match setup.2 with
      | some f => ([setup.1], Outcome.failed f)
      | none => continueAudit req env [setup.1] { r0 with changed := true }

/-- External world of a stable, faithful environment (the collaborators of
spec section 6): the binary either exists or not, and the package manager
lists exactly the installed packages.  Bootstrapping it establishes the
binary, installing adds the requested packages to the listed set, and
nothing else changes it between calls. -/
structure World where
  present : Bool
  installed : List String
deriving Repr, DecidableEq

/-- Stdout the faithful package manager answers `luadist list p` with:
the package name when installed, empty otherwise. -/
def World.listedOut (w : World) (p : String) : String :=
  if p ∈ w.installed then p else ""

/-- Oracle presented to a run by the faithful world: the binary check
answers `w.present` (and true after a bootstrap), every subprocess exits
zero, and list stdout is `w.listedOut`. -/
def envOfWorld (w : World) : Env :=
  { present := w.present
    presentAfterBootstrap := true
    bootstrapRc := 0
    bootstrapOut := ""
    bootstrapErr := ""
    listRc := fun _ => 0
    listOut := fun p => w.listedOut p
    listErr := fun _ => ""
    installRc := 0
    installOut := ""
    installErr := "" }

/-- World state after a run of the extended variant against the faithful
world: the bootstrap (when it ran) has established the binary, and the
install (when it ran, i.e. when some requested package was not judged
present) has added the requested packages to the listed set.  A check-mode
request runs nothing. -/
def postWorld (req : Request) (w : World) : World :=
  if req.check_mode then w
  else
    let w1 : World := { w with present := true }
    match req.name with
    | none => w1
    | some packages =>
      if packages.all (fun p => substrB p (w.listedOut p)) then w1
      else { w1 with installed := w1.installed ++ packages }

end LuadistWrapper

namespace Luadist

/-- Python values, as far as needed to follow the basic variant's
parameter binding. -/
inductive PyVal where
  | str (s : String)
  | pybool (b : Bool)
  | pylist (xs : List PyVal)
  | dict (entries : List (String × PyVal))

/-- Whether a Python value is a string. -/
def PyVal.isStr : PyVal → Bool
  | PyVal.str _ => true
  | _ => false

/-- Value bound by `path = module_args["path"]` (line 95): the
argument-spec dictionary `dict(type='str', required=True)`, not the
caller's `path` parameter (which lives in `module.params`). -/
def path_value : PyVal :=
  PyVal.dict [("type", PyVal.str "str"), ("required", PyVal.pybool true)]

/-- Value bound by `packages = module_args["package"]` (line 96): the
argument-spec dictionary `dict(type='list', elements='str')`. -/
def package_value : PyVal :=
  PyVal.dict [("type", PyVal.str "list"), ("elements", PyVal.str "str")]

/-- os.chdir accepts a string path and raises TypeError for other values
such as dictionaries. -/
def os_chdir (v : PyVal) : Except String Unit :=
  match v with
  | PyVal.str _ => Except.ok ()
  | _ => Except.error "TypeError: chdir: path should be string, bytes, os.PathLike or int, not dict"

/-- Embedding of `_luadist_is_present` (lines 126-129): change into the
given directory, then test existence of `LuaDist/bin/luadist`.  The
directory change propagates the TypeError when the argument is not a
string. -/
def luadist_is_present (env : Env) (v : PyVal) : Except String Bool :=
  match os_chdir v with
  | Except.error e => Except.error e
  | Except.ok _ => Except.ok env.present

/-- Embedding of the basic `_setup_luadist` (lines 132-135): run the
bootstrap pipeline in `path` and return; the result is not inspected and
presence is not re-checked, so this step cannot fail. -/
def setup_luadist (_env : Env) (path : String) : Invocation :=
  { cmd := Cmd.bootstrapBasic, cwd := path }

/-- Embedding of the basic `_is_present` (lines 138-142): run the list
command in `path` and judge the package present iff its name is a
substring of stdout.  The exit code is bound to `_` and ignored, so a
failing list subprocess is not fatal. -/
def is_present (env : Env) (path pkgname : String) : Invocation × Bool :=
  ({ cmd := Cmd.list pkgname, cwd := path }, substrB pkgname (env.listOut pkgname))

/-- Embedding of the basic `_install_packages` (lines 145-170): build and
run the install command in `path`; fail (with a message only) iff stdout
lacks the phrase "Installation succesful" — the exit code is ignored. -/
def install_packages (env : Env) (path : String) (packages : List String)
    (allowed_dists repo : String) : Invocation × Option String :=
  ({ cmd := Cmd.installBasic packages allowed_dists repo, cwd := path },
   if substrB "Installation succesful" env.installOut then none
   else some "Cannot install one or more of the specified packages, make sure all packages exist in the configured repository.")

/-- How a run of the basic variant ends: `exit_json(changed=...)`,
`fail_json(msg=...)`, or an uncaught Python exception. -/
inductive BOutcome where
  | exited (changed : Bool)
  | failed (msg : String)
  | pyError (msg : String)
deriving Repr, DecidableEq

/-- Embedding of `run_module` of the basic variant (lines 76-123).
Lines 95-98 bind the argument-spec dictionaries (`module_args[...]`, not
`module.params[...]`).  In check mode the module exits with changed=False
(line 104) before using them.  Otherwise `_luadist_is_present(path)` calls
`os.chdir` on a dictionary and the interpreter raises TypeError before any
subprocess runs; the rest of the body (lines 106-123) is unreachable
because `path_value` is never a string, so the embedding stops at the
raise. -/
def run_module (req : Request) (env : Env) : List Invocation × BOutcome :=
  let path := path_value
  if req.check_mode then ([], BOutcome.exited false)
  else
    match luadist_is_present env path with
    | Except.error e => ([], BOutcome.pyError e)
    | Except.ok _ => ([], BOutcome.pyError "unreachable: path_value is not a string")

end Luadist

/-- Default repository URL of both variants. -/
def repoDefault : String := "git://github.com/LuaDist/Repository.git"

/-- Concrete request asking for the single package md5 under /env. -/
def reqMd5 : Request :=
  { path := "/env"
    name := some ["md5"]
    allow_dists := "all"
    dists_repo := repoDefault
    check_mode := false }

/-- Concrete request with the package-list parameter omitted. -/
def reqNoName : Request := { reqMd5 with name := none }

/-- Concrete check-mode request. -/
def reqCheck : Request := { reqMd5 with check_mode := true }

/-- Concrete request asking for three packages. -/
def reqABC : Request := { reqMd5 with name := some ["alpha", "beta", "gamma"] }

/-- Environment where the binary is present, md5 is not yet listed, and
the install subprocess exits 1 while printing the benign no-op phrase. -/
def envNoopInstall : Env :=
  { baseEnv with installRc := 1, installOut := "No packages to install" }

/-- Environment where the binary is absent and stays absent after the
bootstrap subprocess has run. -/
def envAbsent : Env :=
  { baseEnv with present := false, presentAfterBootstrap := false }

/-- Environment whose list subprocess exits 1 while printing a listing
that contains the package name. -/
def envListFails : Env :=
  { baseEnv with
      listRc := fun _ => 1
      listOut := fun _ => "md5 1.2-1 installed" }

/-- Environment where alpha is installed, the list subprocess for beta
exits 2, and every other list call succeeds with empty output. -/
def envAuditFail : Env :=
  { baseEnv with
      listRc := fun p => if p = "beta" then 2 else 0
      listOut := fun p => if p = "alpha" then "alpha 1.0-1 installed" else ""
      listErr := fun p => if p = "beta" then "boom" else "" }

/-- Faithful world with nothing installed yet. -/
def w0 : LuadistWrapper.World := { present := false, installed := [] }

/-! ### Helper lemmas -/

theorem prefixB_refl : ∀ l : List Char, prefixB l l = true
  | [] => rfl
  | a :: as => by simp [prefixB, prefixB_refl as]

theorem substrB_self (p : String) : substrB p p = true := by
  unfold substrB
  cases h : p.toList with
  | nil => rfl
  | cons c rest => simp [infixB, prefixB_refl]

theorem foldl_packagesField : ∀ (packages : List String) (a : String),
    packages.foldl (fun c p => c ++ p ++ " ") a = a ++ packagesField packages
  | [], a => by simp [packagesField, String.append_empty]
  | p :: ps, a => by
    simp only [List.foldl_cons, packagesField, foldl_packagesField ps]
    simp [String.append_assoc]

theorem installShell_eq (packages : List String) (allowed_dists repo : String) :
    LuadistWrapper.installShell packages allowed_dists repo =
      "./LuaDist/bin/luadist install " ++ packagesField packages
        ++ " -source=" ++ sourceFlagStr allowed_dists
        ++ " -binary=" ++ binaryFlagStr allowed_dists
        ++ " -repos=\"" ++ repo ++ "\"" := by
  simp only [LuadistWrapper.installShell]
  rw [foldl_packagesField]

theorem installShellBasic_eq (packages : List String) (allowed_dists repo : String) :
    Luadist.installShellBasic packages allowed_dists repo =
      "./LuaDist/bin/luadist install " ++ packagesField packages
        ++ " -source=" ++ sourceFlagStr allowed_dists
        ++ " -binary=" ++ binaryFlagStr allowed_dists
        ++ " --repo=\"" ++ repo ++ "\"" := by
  simp only [Luadist.installShellBasic]
  rw [foldl_packagesField]

theorem auditLoop_trace (env : Env) (path : String) :
    ∀ packages : List String, ∀ inv ∈ (LuadistWrapper.auditLoop env path packages).1,
      inv.cwd = path ∧ Cmd.isList inv.cmd = true := by
  intro packages
  induction packages with
  | nil =>
    intro inv h
    simp [LuadistWrapper.auditLoop] at h
  | cons p ps ih =>
    intro inv h
    by_cases hrc : env.listRc p ≠ 0
    · simp [LuadistWrapper.auditLoop, LuadistWrapper.is_present, hrc] at h
      subst h
      exact ⟨rfl, rfl⟩
    · cases hs : substrB p (env.listOut p) with
      | false =>
        simp [LuadistWrapper.auditLoop, LuadistWrapper.is_present, hrc, hs] at h
        subst h
        exact ⟨rfl, rfl⟩
      | true =>
        simp [LuadistWrapper.auditLoop, LuadistWrapper.is_present, hrc, hs] at h
        rcases h with h | h
        · subst h
          exact ⟨rfl, rfl⟩
        · exact ih inv h

theorem isList_any_false (t : List Invocation)
    (h : ∀ inv ∈ t, Cmd.isList inv.cmd = true) :
    t.any (fun i => Cmd.isBootstrap i.cmd) = false
      ∧ t.any (fun i => Cmd.isInstall i.cmd) = false := by
  constructor <;>
  · rw [List.any_eq_false]
    intro x hx
    have hl := h x hx
    cases hc : x.cmd <;> rw [hc] at hl <;> simp_all [Cmd.isList, Cmd.isBootstrap, Cmd.isInstall]

theorem run_module_exited_spec (req : Request) (env : Env) (t : List Invocation)
    (r : LuadistWrapper.WResult)
    (h : LuadistWrapper.run_module req env = (t, LuadistWrapper.Outcome.exited r)) :
    req.check_mode = false ∧
    ((env.present = true ∧
        LuadistWrapper.continueAudit req env []
          { changed := false, cmd := "", env_path := req.path, name := req.name } =
          (t, LuadistWrapper.Outcome.exited r))
      ∨ (env.present = false ∧ env.presentAfterBootstrap = true ∧
        LuadistWrapper.continueAudit req env [{ cmd := Cmd.bootstrap, cwd := req.path }]
          { changed := true, cmd := "", env_path := req.path, name := req.name } =
          (t, LuadistWrapper.Outcome.exited r))) := by
  by_cases hc : req.check_mode = true
  · simp [LuadistWrapper.run_module, hc] at h
  · simp only [Bool.not_eq_true] at hc
    refine ⟨hc, ?_⟩
    by_cases hp : env.present = true
    · left
      refine ⟨hp, ?_⟩
      simpa [LuadistWrapper.run_module, hc, hp] using h
    · simp only [Bool.not_eq_true] at hp
      by_cases hb : env.presentAfterBootstrap = true
      · right
        refine ⟨hp, hb, ?_⟩
        simpa [LuadistWrapper.run_module, LuadistWrapper.setup_luadist, hc, hp, hb] using h
      · simp only [Bool.not_eq_true] at hb
        simp [LuadistWrapper.run_module, LuadistWrapper.setup_luadist, hc, hp, hb] at h

theorem continueAudit_exited_spec (req : Request) (env : Env) (t1 : List Invocation)
    (r1 : LuadistWrapper.WResult) (t : List Invocation) (r : LuadistWrapper.WResult)
    (packages : List String) (hn : req.name = some packages)
    (h : LuadistWrapper.continueAudit req env t1 r1 = (t, LuadistWrapper.Outcome.exited r)) :
    ((LuadistWrapper.auditLoop env req.path packages).2 = Except.ok true
        ∧ t = t1 ++ (LuadistWrapper.auditLoop env req.path packages).1 ∧ r = r1)
    ∨ ((LuadistWrapper.auditLoop env req.path packages).2 = Except.ok false
        ∧ t = t1 ++ ((LuadistWrapper.auditLoop env req.path packages).1
              ++ [{ cmd := Cmd.install packages req.allow_dists req.dists_repo, cwd := req.path }])
        ∧ r = { changed := true
                cmd := LuadistWrapper.installShell packages req.allow_dists req.dists_repo
                env_path := r1.env_path
                name := r1.name }
        ∧ (env.installRc = 0 ∨ substrB "No packages to install" env.installOut = true)) := by
  rcases haud : (LuadistWrapper.auditLoop env req.path packages).2 with f | b
  · simp [LuadistWrapper.continueAudit, hn, haud] at h
  · cases b with
    | true =>
      left
      simp [LuadistWrapper.continueAudit, hn, haud] at h
      exact ⟨rfl, h.1.symm, h.2.symm⟩
    | false =>
      right
      by_cases hrc0 : env.installRc = 0
      · simp [LuadistWrapper.continueAudit, LuadistWrapper.install_packages, hn, haud, hrc0] at h
        exact ⟨rfl, h.1.symm, h.2.symm, Or.inl hrc0⟩
      · cases hsub : substrB "No packages to install" env.installOut with
        | true =>
          simp [LuadistWrapper.continueAudit, LuadistWrapper.install_packages, hn, haud,
            hrc0, hsub] at h
          exact ⟨rfl, h.1.symm, h.2.symm, Or.inr rfl⟩
        | false =>
          simp [LuadistWrapper.continueAudit, LuadistWrapper.install_packages, hn, haud,
            hrc0, hsub] at h

theorem auditLoop_ok_of_rc_zero (env : Env) (path : String)
    (hrc : ∀ p : String, env.listRc p = 0) :
    ∀ packages : List String,
      (LuadistWrapper.auditLoop env path packages).2 =
        Except.ok (packages.all (fun p => substrB p (env.listOut p))) := by
  intro packages
  induction packages with
  | nil => rfl
  | cons p ps ih =>
    cases hs : substrB p (env.listOut p) with
    | false => simp [LuadistWrapper.auditLoop, LuadistWrapper.is_present, hrc p, hs]
    | true => simp [LuadistWrapper.auditLoop, LuadistWrapper.is_present, hrc p, hs, ih]

theorem auditLoop_error_append (env : Env) (path : String) :
    ∀ (done : List String) (p : String) (rest : List String),
      (∀ q ∈ done, env.listRc q = 0 ∧ substrB q (env.listOut q) = true) →
      env.listRc p ≠ 0 →
      LuadistWrapper.auditLoop env path (done ++ p :: rest) =
        (done.map (fun q => { cmd := Cmd.list q, cwd := path }) ++
          [{ cmd := Cmd.list p, cwd := path }],
         Except.error
           { rc := env.listRc p
             stdout := env.listOut p
             stderr := env.listErr p
             msg := "Cannot check the status of one or more packages." }) := by
  intro done
  induction done with
  | nil =>
    intro p rest _ hp
    simp [LuadistWrapper.auditLoop, LuadistWrapper.is_present, hp]
  | cons q qs ih =>
    intro p rest hdone hp
    have hq := hdone q (by simp)
    have hqs : ∀ x ∈ qs, env.listRc x = 0 ∧ substrB x (env.listOut x) = true :=
      fun x hx => hdone x (by simp [hx])
    simp [LuadistWrapper.auditLoop, LuadistWrapper.is_present, hq.1, hq.2,
      ih p rest hqs hp]

theorem continueAudit_cwd (req : Request) (env : Env) (t1 : List Invocation)
    (r1 : LuadistWrapper.WResult)
    (h1 : ∀ inv ∈ t1, inv.cwd = req.path) :
    ∀ inv ∈ (LuadistWrapper.continueAudit req env t1 r1).1, inv.cwd = req.path := by
  intro inv hinv
  cases hn : req.name with
  | none =>
    simp [LuadistWrapper.continueAudit, hn] at hinv
    exact h1 inv hinv
  | some packages =>
    rcases haud : (LuadistWrapper.auditLoop env req.path packages).2 with f | b
    · simp [LuadistWrapper.continueAudit, hn, haud] at hinv
      rcases hinv with hv | hv
      · exact h1 inv hv
      · exact (auditLoop_trace env req.path packages inv hv).1
    · cases b with
      | true =>
        simp [LuadistWrapper.continueAudit, hn, haud] at hinv
        rcases hinv with hv | hv
        · exact h1 inv hv
        · exact (auditLoop_trace env req.path packages inv hv).1
      | false =>
        rcases hinst : (LuadistWrapper.install_packages env req.path packages
            req.allow_dists req.dists_repo).2 with f | c
        all_goals
          simp [LuadistWrapper.continueAudit, hn, haud, hinst] at hinv
        all_goals
          rcases hinv with hv | hv | hv
        · exact h1 inv hv
        · exact (auditLoop_trace env req.path packages inv hv).1
        · subst hv; rfl
        · exact h1 inv hv
        · exact (auditLoop_trace env req.path packages inv hv).1
        · subst hv; rfl

theorem run_module_cwd (req : Request) (env : Env) :
    ∀ inv ∈ (LuadistWrapper.run_module req env).1, inv.cwd = req.path := by
  intro inv hinv
  by_cases hc : req.check_mode = true
  · simp [LuadistWrapper.run_module, hc] at hinv
  · simp only [Bool.not_eq_true] at hc
    by_cases hp : env.present = true
    · have hrm : (LuadistWrapper.run_module req env).1 =
          (LuadistWrapper.continueAudit req env []
            { changed := false, cmd := "", env_path := req.path, name := req.name }).1 := by
        simp [LuadistWrapper.run_module, hc, hp]
      rw [hrm] at hinv
      exact continueAudit_cwd req env [] _ (by simp) inv hinv
    · simp only [Bool.not_eq_true] at hp
      by_cases hb : env.presentAfterBootstrap = true
      · have hrm : (LuadistWrapper.run_module req env).1 =
            (LuadistWrapper.continueAudit req env [{ cmd := Cmd.bootstrap, cwd := req.path }]
              { changed := true, cmd := "", env_path := req.path, name := req.name }).1 := by
          simp [LuadistWrapper.run_module, LuadistWrapper.setup_luadist, hc, hp, hb]
        rw [hrm] at hinv
        refine continueAudit_cwd req env _ _ ?_ inv hinv
        intro x hx
        simp at hx
        subst hx
        rfl
      · simp only [Bool.not_eq_true] at hb
        have hrm : (LuadistWrapper.run_module req env).1 =
            [{ cmd := Cmd.bootstrap, cwd := req.path }] := by
          simp [LuadistWrapper.run_module, LuadistWrapper.setup_luadist, hc, hp, hb]
        rw [hrm] at hinv
        simp at hinv
        subst hinv
        rfl

/-! ### Claim theorems -/

/-- Claim C5: a check-mode request runs no subprocess in either variant
and reports changed = false.  The extended variant is stopped by the
harness (it registers no check-mode support), the basic variant exits
with changed=False before any subprocess. -/
theorem c5_check_mode (req : Request) (env : Env) (h : req.check_mode = true) :
    LuadistWrapper.run_module req env = ([], LuadistWrapper.Outcome.skipped)
    ∧ (LuadistWrapper.run_module req env).2.changedFlag = false
    ∧ Luadist.run_module req env = ([], Luadist.BOutcome.exited false) := by
  refine ⟨?_, ?_, ?_⟩
  · simp [LuadistWrapper.run_module, h]
  · simp [LuadistWrapper.run_module, h, LuadistWrapper.Outcome.changedFlag]
  · simp [Luadist.run_module, h]

/-- Witness for C5 at a concrete check-mode request. -/
theorem c5_check_mode_witness :
    LuadistWrapper.run_module reqCheck baseEnv = ([], LuadistWrapper.Outcome.skipped)
    ∧ (LuadistWrapper.run_module reqCheck baseEnv).2.changedFlag = false
    ∧ Luadist.run_module reqCheck baseEnv = ([], Luadist.BOutcome.exited false) :=
  c5_check_mode reqCheck baseEnv rfl

/-- Claim C7: the dist-policy mapping is exact in both variants — policy
"all" yields -source=true -binary=true, "binary" yields -source=false
-binary=true, "source" yields -source=true -binary=false — and those flag
values appear after the package names and before the quoted repository in
the constructed install command. -/
theorem c7_dist_policy :
    (sourceFlagStr "all" = "true" ∧ binaryFlagStr "all" = "true")
    ∧ (sourceFlagStr "binary" = "false" ∧ binaryFlagStr "binary" = "true")
    ∧ (sourceFlagStr "source" = "true" ∧ binaryFlagStr "source" = "false")
    ∧ (∀ (packages : List String) (allowed_dists repo : String),
        LuadistWrapper.installShell packages allowed_dists repo =
          "./LuaDist/bin/luadist install " ++ packagesField packages
            ++ " -source=" ++ sourceFlagStr allowed_dists
            ++ " -binary=" ++ binaryFlagStr allowed_dists
            ++ " -repos=\"" ++ repo ++ "\""
        ∧ Luadist.installShellBasic packages allowed_dists repo =
          "./LuaDist/bin/luadist install " ++ packagesField packages
            ++ " -source=" ++ sourceFlagStr allowed_dists
            ++ " -binary=" ++ binaryFlagStr allowed_dists
            ++ " --repo=\"" ++ repo ++ "\"") :=
  ⟨⟨rfl, rfl⟩, ⟨rfl, rfl⟩, ⟨rfl, rfl⟩,
   fun packages a r => ⟨installShell_eq packages a r, installShellBasic_eq packages a r⟩⟩

/-- Claim C3 counterexample: on a request whose path lacks the binary
(and where it stays absent after bootstrap), the basic variant runs no
bootstrap subprocess at all — its non-check runs crash beforehand with
the parameter-binding TypeError — and its `_setup_luadist` has no
re-check and no failure path: it returns the bare invocation even though
the binary is still absent afterwards. -/
theorem c3_cex :
    envAbsent.present = false
    ∧ envAbsent.presentAfterBootstrap = false
    ∧ Luadist.setup_luadist envAbsent "/env" = { cmd := Cmd.bootstrapBasic, cwd := "/env" }
    ∧ Luadist.run_module reqMd5 envAbsent =
        ([], Luadist.BOutcome.pyError
          "TypeError: chdir: path should be string, bytes, os.PathLike or int, not dict") :=
  ⟨rfl, rfl, rfl, rfl⟩

/-- Claim C3 (amended to the extended variant): when the binary is absent
and still absent after the bootstrap subprocess, the run consists of
exactly one bootstrap invocation (no retry) and fails fatally surfacing
the captured exit code, stdout and stderr, with no audit or install
invocation. -/
theorem c3_amended (req : Request) (env : Env)
    (hc : req.check_mode = false) (hp : env.present = false)
    (hb : env.presentAfterBootstrap = false) :
    LuadistWrapper.run_module req env =
      ([{ cmd := Cmd.bootstrap, cwd := req.path }],
       LuadistWrapper.Outcome.failed
         { rc := env.bootstrapRc
           stdout := env.bootstrapOut
           stderr := env.bootstrapErr
           msg := "Cannot create LuaDist environment in the specified path." }) := by
  simp [LuadistWrapper.run_module, LuadistWrapper.setup_luadist, hc, hp, hb]

/-- Witness for the amended C3 at a concrete request and environment. -/
theorem c3_amended_witness :
    LuadistWrapper.run_module reqMd5 envAbsent =
      ([{ cmd := Cmd.bootstrap, cwd := reqMd5.path }],
       LuadistWrapper.Outcome.failed
         { rc := envAbsent.bootstrapRc
           stdout := envAbsent.bootstrapOut
           stderr := envAbsent.bootstrapErr
           msg := "Cannot create LuaDist environment in the specified path." }) :=
  c3_amended reqMd5 envAbsent rfl rfl rfl

/-- Claim C10: the extended variant produces a result only when the
package-list parameter is an actual list — any normal exit implies the
parameter was supplied — and a request that omits it (binding None)
raises TypeError at the audit loop, after the bootstrap step when one
ran. -/
theorem c10_none_name :
    (∀ (req : Request) (env : Env) (t : List Invocation) (r : LuadistWrapper.WResult),
      LuadistWrapper.run_module req env = (t, LuadistWrapper.Outcome.exited r) →
      req.name ≠ none)
    ∧ (∀ (req : Request) (env : Env),
      req.check_mode = false → req.name = none →
      ((env.present = true →
        LuadistWrapper.run_module req env =
          ([], LuadistWrapper.Outcome.pyError "TypeError: NoneType object is not iterable"))
      ∧ (env.present = false → env.presentAfterBootstrap = true →
        LuadistWrapper.run_module req env =
          ([{ cmd := Cmd.bootstrap, cwd := req.path }],
           LuadistWrapper.Outcome.pyError "TypeError: NoneType object is not iterable")))) := by
  constructor
  · intro req env t r h hn
    rcases run_module_exited_spec req env t r h with ⟨_, hcase⟩
    rcases hcase with ⟨_, h2⟩ | ⟨_, _, h2⟩ <;>
      simp [LuadistWrapper.continueAudit, hn] at h2
  · intro req env hc hn
    constructor
    · intro hp
      simp [LuadistWrapper.run_module, LuadistWrapper.continueAudit, hc, hn, hp]
    · intro hp hb
      simp [LuadistWrapper.run_module, LuadistWrapper.continueAudit,
        LuadistWrapper.setup_luadist, hc, hn, hp, hb]

/-- Witness for C10 at a concrete request omitting the package list. -/
theorem c10_none_name_witness :
    LuadistWrapper.run_module reqNoName baseEnv =
      ([], LuadistWrapper.Outcome.pyError "TypeError: NoneType object is not iterable") :=
  (c10_none_name.2 reqNoName baseEnv rfl rfl).1 rfl

/-- Claim C2 (code bug in the basic variant): the extended variant runs
every subprocess with the request's path as working directory and echoes
the caller's path and package list in its result, but the basic variant's
run_module binds the argument-spec dictionaries (`module_args[...]`) in
place of the caller's parameters (`module.params[...]`), so its non-check
runs pass a dictionary to os.chdir and crash with TypeError before any
subprocess — the caller-supplied values are never used. -/
theorem c2_params :
    (∀ (req : Request) (env : Env), ∀ inv ∈ (LuadistWrapper.run_module req env).1,
        inv.cwd = req.path)
    ∧ (∀ (req : Request) (env : Env) (t : List Invocation) (r : LuadistWrapper.WResult),
        LuadistWrapper.run_module req env = (t, LuadistWrapper.Outcome.exited r) →
        r.env_path = req.path ∧ r.name = req.name)
    ∧ Luadist.path_value.isStr = false
    ∧ Luadist.run_module reqMd5 baseEnv =
        ([], Luadist.BOutcome.pyError
          "TypeError: chdir: path should be string, bytes, os.PathLike or int, not dict") := by
  refine ⟨run_module_cwd, ?_, rfl, rfl⟩
  intro req env t r h
  rcases run_module_exited_spec req env t r h with ⟨_, hcase⟩
  cases hn : req.name with
  | none =>
    rcases hcase with ⟨_, h2⟩ | ⟨_, _, h2⟩ <;>
      simp [LuadistWrapper.continueAudit, hn] at h2
  | some packages =>
    rcases hcase with ⟨_, h2⟩ | ⟨_, _, h2⟩ <;>
      rcases continueAudit_exited_spec req env _ _ t r packages hn h2 with
        ⟨_, _, hr⟩ | ⟨_, _, hr, _⟩ <;>
      subst hr <;> exact ⟨rfl, hn⟩

/-- Witness for C2's universally quantified parts at a concrete run of
the extended variant. -/
theorem c2_params_witness :
    ({ cmd := Cmd.list "md5", cwd := "/env" } : Invocation).cwd = reqMd5.path
    ∧ ({ changed := true
         cmd := LuadistWrapper.installShell ["md5"] "all" repoDefault
         env_path := "/env"
         name := some ["md5"] } : LuadistWrapper.WResult).env_path = reqMd5.path :=
  ⟨c2_params.1 reqMd5 envNoopInstall { cmd := Cmd.list "md5", cwd := "/env" } (by decide),
   (c2_params.2.1 reqMd5 envNoopInstall
      [{ cmd := Cmd.list "md5", cwd := "/env" },
       { cmd := Cmd.install ["md5"] "all" repoDefault, cwd := "/env" }]
      { changed := true
        cmd := LuadistWrapper.installShell ["md5"] "all" repoDefault
        env_path := "/env"
        name := some ["md5"] } rfl).1⟩

/-- Claim C1 counterexample: with the binary already present (so no
bootstrap occurred), a missing package, and an install subprocess that
exits 1 while printing the no-op phrase, the extended variant reports
success with changed = true — so changed does not reflect whether
bootstrap occurred; it also accounts for the install step that ran. -/
theorem c1_cex :
    envNoopInstall.installRc = 1
    ∧ substrB "No packages to install" envNoopInstall.installOut = true
    ∧ envNoopInstall.present = true
    ∧ LuadistWrapper.run_module reqMd5 envNoopInstall =
        ([{ cmd := Cmd.list "md5", cwd := "/env" },
          { cmd := Cmd.install ["md5"] "all" repoDefault, cwd := "/env" }],
         LuadistWrapper.Outcome.exited
           { changed := true
             cmd := LuadistWrapper.installShell ["md5"] "all" repoDefault
             env_path := "/env"
             name := some ["md5"] })
    ∧ ([{ cmd := Cmd.list "md5", cwd := "/env" },
        { cmd := Cmd.install ["md5"] "all" repoDefault, cwd := "/env" }] : List Invocation).any
          (fun i => Cmd.isBootstrap i.cmd) = false := by
  refine ⟨rfl, by decide, rfl, ?_, by decide⟩
  rfl

/-- Claim C1 (amended): in the extended variant, when the install step
runs and its subprocess exits non-zero, a fatal InstallFailure is
reported iff stdout lacks the "No packages to install" phrase; when the
phrase is present the run reports success with no fatal error, and
changed is computed as for any run — bootstrap ran OR install ran —
hence true here, because the install step ran. -/
theorem c1_amended (req : Request) (env : Env) (packages : List String)
    (hc : req.check_mode = false) (hn : req.name = some packages)
    (hsetup : env.present = true ∨ env.presentAfterBootstrap = true)
    (haudit : (LuadistWrapper.auditLoop env req.path packages).2 = Except.ok false)
    (hrc : env.installRc ≠ 0) :
    ((LuadistWrapper.run_module req env).2.isFatal = true ↔
      substrB "No packages to install" env.installOut = false)
    ∧ (substrB "No packages to install" env.installOut = true →
      (LuadistWrapper.run_module req env).2 =
        LuadistWrapper.Outcome.exited
          { changed := true
            cmd := LuadistWrapper.installShell packages req.allow_dists req.dists_repo
            env_path := req.path
            name := some packages }) := by
  cases hs : substrB "No packages to install" env.installOut with
  | true =>
    have hrun : (LuadistWrapper.run_module req env).2 =
        LuadistWrapper.Outcome.exited
          { changed := true
            cmd := LuadistWrapper.installShell packages req.allow_dists req.dists_repo
            env_path := req.path
            name := some packages } := by
      by_cases hp : env.present = true
      · simp [LuadistWrapper.run_module, LuadistWrapper.continueAudit,
          LuadistWrapper.install_packages, hc, hp, hn, haudit, hs, hrc]
      · simp only [Bool.not_eq_true] at hp
        have hb : env.presentAfterBootstrap = true := by
          rcases hsetup with h | h
          · rw [hp] at h; cases h
          · exact h
        simp [LuadistWrapper.run_module, LuadistWrapper.continueAudit,
          LuadistWrapper.install_packages, LuadistWrapper.setup_luadist,
          hc, hp, hb, hn, haudit, hs, hrc]
    rw [hrun]
    exact ⟨by simp [LuadistWrapper.Outcome.isFatal], fun _ => rfl⟩
  | false =>
    have hrun : (LuadistWrapper.run_module req env).2.isFatal = true := by
      by_cases hp : env.present = true
      · simp [LuadistWrapper.run_module, LuadistWrapper.continueAudit,
          LuadistWrapper.install_packages, LuadistWrapper.Outcome.isFatal,
          hc, hp, hn, haudit, hs, hrc]
      · simp only [Bool.not_eq_true] at hp
        have hb : env.presentAfterBootstrap = true := by
          rcases hsetup with h | h
          · rw [hp] at h; cases h
          · exact h
        simp [LuadistWrapper.run_module, LuadistWrapper.continueAudit,
          LuadistWrapper.install_packages, LuadistWrapper.setup_luadist,
          LuadistWrapper.Outcome.isFatal, hc, hp, hb, hn, haudit, hs, hrc]
    refine ⟨by simp [hrun], ?_⟩
    intro h
    cases h

/-- Witness for the amended C1 at a concrete request and environment. -/
theorem c1_amended_witness :
    ((LuadistWrapper.run_module reqMd5 envNoopInstall).2.isFatal = true ↔
      substrB "No packages to install" envNoopInstall.installOut = false)
    ∧ (substrB "No packages to install" envNoopInstall.installOut = true →
      (LuadistWrapper.run_module reqMd5 envNoopInstall).2 =
        LuadistWrapper.Outcome.exited
          { changed := true
            cmd := LuadistWrapper.installShell ["md5"] reqMd5.allow_dists reqMd5.dists_repo
            env_path := reqMd5.path
            name := some ["md5"] }) :=
  c1_amended reqMd5 envNoopInstall ["md5"] rfl rfl (Or.inl rfl) rfl (by decide)

/-- Claim C4 counterexample: the basic variant's package audit ignores
the exit code of the list subprocess — with a list call that exits 1 it
produces a presence verdict instead of failing fatally. -/
theorem c4_cex :
    envListFails.listRc "md5" = 1
    ∧ Luadist.is_present envListFails "/env" "md5" =
        ({ cmd := Cmd.list "md5", cwd := "/env" }, true) := by
  exact ⟨rfl, by decide⟩

/-- Claim C4 (amended): in the extended variant, when the first packages
are judged present and the next list subprocess exits non-zero, the run
fails fatally with the captured exit code, stdout and stderr, its trace
holding only the list invocations made so far — no further audit and no
install subprocess; and with a zero exit code a package is judged present
iff its name is a substring of the list stdout.  The basic variant's
audit ignores the exit code. -/
theorem c4_amended :
    (∀ (req : Request) (env : Env) (done : List String) (p : String) (rest : List String),
      req.check_mode = false → req.name = some (done ++ p :: rest) →
      env.present = true →
      (∀ q ∈ done, env.listRc q = 0 ∧ substrB q (env.listOut q) = true) →
      env.listRc p ≠ 0 →
      LuadistWrapper.run_module req env =
        (done.map (fun q => { cmd := Cmd.list q, cwd := req.path }) ++
          [{ cmd := Cmd.list p, cwd := req.path }],
         LuadistWrapper.Outcome.failed
           { rc := env.listRc p
             stdout := env.listOut p
             stderr := env.listErr p
             msg := "Cannot check the status of one or more packages." }))
    ∧ (∀ (env : Env) (path pkgname : String),
      env.listRc pkgname = 0 →
      (LuadistWrapper.is_present env path pkgname).2 =
        Except.ok (substrB pkgname (env.listOut pkgname))) := by
  constructor
  · intro req env done p rest hc hn hp hdone hrc
    have haud := auditLoop_error_append env req.path done p rest hdone hrc
    simp [LuadistWrapper.run_module, LuadistWrapper.continueAudit, hc, hn, hp, haud]
  · intro env path pkgname h
    simp [LuadistWrapper.is_present, h]

/-- Witness for the amended C4 at a concrete request and environment. -/
theorem c4_amended_witness :
    LuadistWrapper.run_module reqABC envAuditFail =
      ([{ cmd := Cmd.list "alpha", cwd := reqABC.path },
        { cmd := Cmd.list "beta", cwd := reqABC.path }],
       LuadistWrapper.Outcome.failed
         { rc := envAuditFail.listRc "beta"
           stdout := envAuditFail.listOut "beta"
           stderr := envAuditFail.listErr "beta"
           msg := "Cannot check the status of one or more packages." })
    ∧ (LuadistWrapper.is_present envAuditFail "/env" "alpha").2 =
        Except.ok (substrB "alpha" (envAuditFail.listOut "alpha")) :=
  ⟨c4_amended.1 reqABC envAuditFail ["alpha"] "beta" ["gamma"] rfl rfl rfl
      (by intro q hq; simp at hq; subst hq; exact ⟨rfl, by decide⟩) (by decide),
   c4_amended.2 envAuditFail "/env" "alpha" rfl⟩

/-- Claim C6: the constructed install command of the extended variant is
the header followed by every requested package name exactly once, in
request order (the packagesField concatenation), then the -source and
-binary flags, then the double-quoted repository URL; and the returned
cmd field equals exactly this constructed string when the install step
ran, and the empty string when no install ran. -/
theorem c6_install_cmd :
    (∀ (packages : List String) (allowed_dists repo : String),
      LuadistWrapper.installShell packages allowed_dists repo =
        "./LuaDist/bin/luadist install " ++ packagesField packages
          ++ " -source=" ++ sourceFlagStr allowed_dists
          ++ " -binary=" ++ binaryFlagStr allowed_dists
          ++ " -repos=\"" ++ repo ++ "\"")
    ∧ (∀ (req : Request) (env : Env) (t : List Invocation) (r : LuadistWrapper.WResult)
        (packages : List String),
        req.name = some packages →
        LuadistWrapper.run_module req env = (t, LuadistWrapper.Outcome.exited r) →
        ((t.any (fun i => Cmd.isInstall i.cmd) = true →
            r.cmd = LuadistWrapper.installShell packages req.allow_dists req.dists_repo)
          ∧ (t.any (fun i => Cmd.isInstall i.cmd) = false → r.cmd = ""))) := by
  constructor
  · exact installShell_eq
  · intro req env t r packages hn h
    have haudany := (isList_any_false (LuadistWrapper.auditLoop env req.path packages).1
      (fun inv hv => (auditLoop_trace env req.path packages inv hv).2)).2
    rcases run_module_exited_spec req env t r h with ⟨_, hcase⟩
    rcases hcase with ⟨hp, h2⟩ | ⟨hp, hb, h2⟩ <;>
      rcases continueAudit_exited_spec req env _ _ t r packages hn h2 with
        ⟨haud, ht, hr⟩ | ⟨haud, ht, hr, hok⟩ <;>
      subst hr
    · have hfalse : t.any (fun i => Cmd.isInstall i.cmd) = false := by
        subst ht; simp [haudany]
      exact ⟨(fun htrue => by rw [hfalse] at htrue; cases htrue), (fun _ => rfl)⟩
    · have htrue : t.any (fun i => Cmd.isInstall i.cmd) = true := by
        subst ht; simp [Cmd.isInstall]
      exact ⟨(fun _ => rfl), (fun hfalse => by rw [htrue] at hfalse; cases hfalse)⟩
    · have hfalse : t.any (fun i => Cmd.isInstall i.cmd) = false := by
        subst ht
        simp only [List.singleton_append, List.any_cons, haudany, Bool.or_false]
        rfl
      exact ⟨(fun htrue => by rw [hfalse] at htrue; cases htrue), (fun _ => rfl)⟩
    · have htrue : t.any (fun i => Cmd.isInstall i.cmd) = true := by
        subst ht; simp [Cmd.isInstall]
      exact ⟨(fun _ => rfl), (fun hfalse => by rw [htrue] at hfalse; cases hfalse)⟩

/-- Witness for C6's run-level part at a concrete run whose install step
ran. -/
theorem c6_install_cmd_witness :
    ({ changed := true
       cmd := LuadistWrapper.installShell ["md5"] "all" repoDefault
       env_path := "/env"
       name := some ["md5"] } : LuadistWrapper.WResult).cmd =
      LuadistWrapper.installShell ["md5"] reqMd5.allow_dists reqMd5.dists_repo :=
  (c6_install_cmd.2 reqMd5 envNoopInstall
    [{ cmd := Cmd.list "md5", cwd := "/env" },
     { cmd := Cmd.install ["md5"] "all" repoDefault, cwd := "/env" }]
    { changed := true
      cmd := LuadistWrapper.installShell ["md5"] "all" repoDefault
      env_path := "/env"
      name := some ["md5"] }
    ["md5"] rfl rfl).1 (by decide)

/-- Claim C8: for every successful run of the extended variant the
reported changed flag is true iff the trace contains a bootstrap or an
install invocation; with an empty package list and the binary already
present, the run performs no invocation and reports changed = false with
an empty cmd.  Every normal exit of the basic variant is a check-mode
exit: changed = false and no invocation. -/
theorem c8_changed :
    (∀ (req : Request) (env : Env) (t : List Invocation) (r : LuadistWrapper.WResult),
      LuadistWrapper.run_module req env = (t, LuadistWrapper.Outcome.exited r) →
      r.changed = (t.any (fun i => Cmd.isBootstrap i.cmd)
                    || t.any (fun i => Cmd.isInstall i.cmd)))
    ∧ (∀ (req : Request) (env : Env),
      req.check_mode = false → req.name = some [] → env.present = true →
      LuadistWrapper.run_module req env =
        ([], LuadistWrapper.Outcome.exited
          { changed := false, cmd := "", env_path := req.path, name := some [] }))
    ∧ (∀ (req : Request) (env : Env) (t : List Invocation) (b : Bool),
      Luadist.run_module req env = (t, Luadist.BOutcome.exited b) →
      b = false ∧ t = []) := by
  refine ⟨?_, ?_, ?_⟩
  · intro req env t r h
    rcases run_module_exited_spec req env t r h with ⟨_, hcase⟩
    cases hnn : req.name with
    | none =>
      rcases hcase with ⟨_, h2⟩ | ⟨_, _, h2⟩ <;>
        simp [LuadistWrapper.continueAudit, hnn] at h2
    | some packages =>
      have haudB := (isList_any_false (LuadistWrapper.auditLoop env req.path packages).1
        (fun inv hv => (auditLoop_trace env req.path packages inv hv).2)).1
      have haudI := (isList_any_false (LuadistWrapper.auditLoop env req.path packages).1
        (fun inv hv => (auditLoop_trace env req.path packages inv hv).2)).2
      have hBboot : (([{ cmd := Cmd.bootstrap, cwd := req.path }] : List Invocation).any
          (fun i => Cmd.isBootstrap i.cmd)) = true := rfl
      have hIboot : (([{ cmd := Cmd.bootstrap, cwd := req.path }] : List Invocation).any
          (fun i => Cmd.isInstall i.cmd)) = false := rfl
      have hBinst : (([⟨Cmd.install packages req.allow_dists req.dists_repo,
            req.path⟩] : List Invocation).any
          (fun i => Cmd.isBootstrap i.cmd)) = false := rfl
      have hIinst : (([⟨Cmd.install packages req.allow_dists req.dists_repo,
            req.path⟩] : List Invocation).any
          (fun i => Cmd.isInstall i.cmd)) = true := rfl
      rcases hcase with ⟨hp, h2⟩ | ⟨hp, hb, h2⟩ <;>
        rcases continueAudit_exited_spec req env _ _ t r packages hnn h2 with
          ⟨haud, ht, hr⟩ | ⟨haud, ht, hr, hok⟩ <;>
        subst hr <;> subst ht <;>
        (simp [List.any_append, haudB, haudI, hBboot, hIboot, hBinst, hIinst] <;>
          exact Or.inl rfl)
  · intro req env hc hn hp
    simp [LuadistWrapper.run_module, LuadistWrapper.continueAudit,
      LuadistWrapper.auditLoop, hc, hn, hp]
  · intro req env t b h
    by_cases hc : req.check_mode = true
    · simp [Luadist.run_module, hc] at h
      exact ⟨h.2, h.1⟩
    · simp [Luadist.run_module, Luadist.luadist_is_present, Luadist.os_chdir,
        Luadist.path_value, hc] at h

/-- Witness for C8 at concrete runs: a run whose install step ran has
changed = true matching its trace, and a run with an empty package list
on a bootstrapped path reports changed = false with no invocation. -/
theorem c8_changed_witness :
    ({ changed := true
       cmd := LuadistWrapper.installShell ["md5"] "all" repoDefault
       env_path := "/env"
       name := some ["md5"] } : LuadistWrapper.WResult).changed =
      (([{ cmd := Cmd.list "md5", cwd := "/env" },
         { cmd := Cmd.install ["md5"] "all" repoDefault, cwd := "/env" }] : List Invocation).any
          (fun i => Cmd.isBootstrap i.cmd)
        || ([{ cmd := Cmd.list "md5", cwd := "/env" },
             { cmd := Cmd.install ["md5"] "all" repoDefault, cwd := "/env" }] : List Invocation).any
            (fun i => Cmd.isInstall i.cmd))
    ∧ LuadistWrapper.run_module { reqMd5 with name := some [] } baseEnv =
        ([], LuadistWrapper.Outcome.exited
          { changed := false, cmd := "", env_path := { reqMd5 with name := some [] }.path,
            name := some [] }) :=
  ⟨c8_changed.1 reqMd5 envNoopInstall
      [{ cmd := Cmd.list "md5", cwd := "/env" },
       { cmd := Cmd.install ["md5"] "all" repoDefault, cwd := "/env" }]
      { changed := true
        cmd := LuadistWrapper.installShell ["md5"] "all" repoDefault
        env_path := "/env"
        name := some ["md5"] } rfl,
   c8_changed.2.1 { reqMd5 with name := some [] } baseEnv rfl rfl rfl⟩

theorem run_module_converged (req : Request) (env : Env) (packages : List String)
    (hc : req.check_mode = false) (hn : req.name = some packages)
    (hp : env.present = true) (hrc : ∀ p : String, env.listRc p = 0)
    (hall : packages.all (fun p => substrB p (env.listOut p)) = true) :
    LuadistWrapper.run_module req env =
      ((LuadistWrapper.auditLoop env req.path packages).1,
       LuadistWrapper.Outcome.exited
         { changed := false, cmd := "", env_path := req.path, name := some packages }) := by
  have haud := auditLoop_ok_of_rc_zero env req.path hrc packages
  rw [hall] at haud
  simp [LuadistWrapper.run_module, LuadistWrapper.continueAudit, hc, hp, hn, haud]

theorem postWorld_present (req : Request) (w : LuadistWrapper.World)
    (hc : req.check_mode = false) (packages : List String) (hn : req.name = some packages) :
    (LuadistWrapper.postWorld req w).present = true := by
  simp [LuadistWrapper.postWorld, hc, hn]
  split <;> rfl

theorem postWorld_all_listed (req : Request) (w : LuadistWrapper.World) (packages : List String)
    (hc : req.check_mode = false) (hn : req.name = some packages) :
    packages.all (fun p =>
      substrB p ((LuadistWrapper.postWorld req w).listedOut p)) = true := by
  simp only [LuadistWrapper.postWorld, hc, hn]
  cases hall : packages.all (fun p => substrB p (w.listedOut p)) with
  | true =>
    simp only [LuadistWrapper.World.listedOut] at hall ⊢
    simpa using hall
  | false =>
    rw [List.all_eq_true]
    intro p hp
    have hmem : p ∈ w.installed ++ packages := List.mem_append_right _ hp
    simp [LuadistWrapper.World.listedOut, hmem, substrB_self]

/-- Claim C9: reconciliation is idempotent against a stable, faithful
external environment (the `World` model of the spec's collaborators: the
bootstrap establishes the binary, the install makes the requested
packages listed, and nothing else changes between calls).  If a first
run of the extended variant succeeds, a second run with the identical
request against the resulting world reports changed = false and performs
only list invocations — neither bootstrap nor install. -/
theorem c9_idempotent (req : Request) (w : LuadistWrapper.World)
    (hsucc : (LuadistWrapper.run_module req (LuadistWrapper.envOfWorld w)).2.isSuccess = true) :
    (LuadistWrapper.run_module req
        (LuadistWrapper.envOfWorld (LuadistWrapper.postWorld req w))).2.changedFlag = false
    ∧ ((LuadistWrapper.run_module req
        (LuadistWrapper.envOfWorld (LuadistWrapper.postWorld req w))).1.all
          (fun i => Cmd.isList i.cmd)) = true := by
  by_cases hc : req.check_mode = true
  · constructor <;>
      simp [LuadistWrapper.run_module, hc, LuadistWrapper.Outcome.changedFlag]
  · simp only [Bool.not_eq_true] at hc
    cases hn : req.name with
    | none =>
      exfalso
      by_cases hw : w.present = true
      · simp [LuadistWrapper.run_module, LuadistWrapper.continueAudit,
          LuadistWrapper.envOfWorld, LuadistWrapper.Outcome.isSuccess, hc, hn, hw] at hsucc
      · simp only [Bool.not_eq_true] at hw
        simp [LuadistWrapper.run_module, LuadistWrapper.continueAudit,
          LuadistWrapper.setup_luadist, LuadistWrapper.envOfWorld,
          LuadistWrapper.Outcome.isSuccess, hc, hn, hw] at hsucc
    | some packages =>
      have hall := postWorld_all_listed req w packages hc hn
      have hpres : (LuadistWrapper.envOfWorld (LuadistWrapper.postWorld req w)).present = true :=
        postWorld_present req w hc packages hn
      have hrc : ∀ p : String,
          (LuadistWrapper.envOfWorld (LuadistWrapper.postWorld req w)).listRc p = 0 :=
        fun _ => rfl
      have hall2 : packages.all (fun p =>
          substrB p ((LuadistWrapper.envOfWorld
            (LuadistWrapper.postWorld req w)).listOut p)) = true := hall
      have hrun := run_module_converged req
        (LuadistWrapper.envOfWorld (LuadistWrapper.postWorld req w))
        packages hc hn hpres hrc hall2
      rw [hrun]
      constructor
      · rfl
      · rw [List.all_eq_true]
        intro inv hv
        exact (auditLoop_trace _ _ packages inv hv).2

/-- Witness for C9 at a concrete request and an initially empty world. -/
theorem c9_idempotent_witness :
    (LuadistWrapper.run_module reqMd5
        (LuadistWrapper.envOfWorld (LuadistWrapper.postWorld reqMd5 w0))).2.changedFlag = false
    ∧ ((LuadistWrapper.run_module reqMd5
        (LuadistWrapper.envOfWorld (LuadistWrapper.postWorld reqMd5 w0))).1.all
          (fun i => Cmd.isList i.cmd)) = true :=
  c9_idempotent reqMd5 w0 (by decide)
